import Mathlib

/-!
Verification development for the chat data-access layer:
a Cosmos-DB-backed conversation store client
(`src/backend/history/comosdbservice-comments.py`) and response/parsing
utilities (`src/backend/utils.py`).

The document database, the Microsoft Graph HTTP endpoint and the JSON
library are external systems; they are modelled explicitly:
the Cosmos container is a list of documents with upsert/read/delete/query
primitives keyed by the pair of document `id` and partition key `userId`
(Cosmos enforces uniqueness of that pair, so point deletion is modelled as
filtering that key out), Graph pagination is a chain of page responses, and
JSON values are a small inductive type.
All Python code paths are translated function by function from the source.
-/

/-! ## JSON-like values (Python dicts / lists / scalars) -/

/-- A JSON-like value, modelling the Python dicts, lists and scalars that
flow through the response formatter. Objects are association lists in
insertion order, matching Python dict key order. -/
inductive JVal where
  | null : JVal
  | bool (b : Bool) : JVal
  | num (n : Int) : JVal
  | str (s : String) : JVal
  | arr (xs : List JVal) : JVal
  | obj (fields : List (String × JVal)) : JVal

/-- Dictionary field lookup, `d[k]` / `d.get(k)` on a Python dict: the first
binding of the key, if any. Non-objects have no fields. -/
def jLookup (k : String) : JVal → Option JVal
  | .obj fields => lookupField k fields
  | _ => none
where
  lookupField (k : String) : List (String × JVal) → Option JVal
    | [] => none
    | (k₁, v) :: rest => if k₁ = k then some v else lookupField k rest

/-- Python `d.get(k)`: the value, or `None` when the key is absent. -/
def pyGet (d : JVal) (k : String) : JVal :=
  match jLookup k d with
  | some v => v
  | none => .null

/-- Python truthiness of a JSON-like value: `None`, `False`, `0`, the empty
string, the empty list and the empty dict are falsy. -/
def jTruthy : JVal → Bool
  | .null => false
  | .bool b => b
  | .num n => n != 0
  | .str s => s ≠ ""
  | .arr xs => !xs.isEmpty
  | .obj fields => !fields.isEmpty

/-- The element list of a JSON array (Python iteration over a list). -/
def jElems : JVal → List JVal
  | .arr xs => xs
  | _ => []

/-- The keys of a JSON object, in insertion order. -/
def jKeys : JVal → List String
  | .obj fields => fields.map Prod.fst
  | _ => []

/-- JSON string quoting as done by `json.dumps`: backslashes and double
quotes escaped, the result wrapped in double quotes. -/
def dumpJString (s : String) : String :=
  "\"" ++ ((s.replace "\\" "\\\\").replace "\"" "\\\"") ++ "\""

mutual

/-- Serialisation of a JSON-like value, modelling Python `json.dumps`. -/
def jDumps : JVal → String
  | .null => "null"
  | .bool true => "true"
  | .bool false => "false"
  | .num n => toString n
  | .str s => dumpJString s
  | .arr xs => "[" ++ jDumpsArr xs ++ "]"
  | .obj fields => "\x7b" ++ jDumpsObj fields ++ "\x7d"

/-- Comma-separated serialisation of JSON array elements. -/
def jDumpsArr : List JVal → String
  | [] => ""
  | [x] => jDumps x
  | x :: rest => jDumps x ++ ", " ++ jDumpsArr rest

/-- Comma-separated serialisation of JSON object fields. -/
def jDumpsObj : List (String × JVal) → String
  | [] => ""
  | [(k, v)] => dumpJString k ++ ": " ++ jDumps v
  | (k, v) :: rest => dumpJString k ++ ": " ++ jDumps v ++ ", " ++ jDumpsObj rest

end

/-! ## `parse_multi_columns` (src/backend/utils.py)

Strings are modelled as `List Char` so that the splitting/joining
properties can be proved by structural induction; Python `str.split(sep)`
with a one-character separator is `splitOnChar`. -/

/-- Python `s.split(sep)` for a single-character separator `sep`: the
(always non-empty) list of maximal separator-free segments, keeping empty
segments, so that joining with `sep` restores `s`. -/
def splitOnChar (sep : Char) : List Char → List (List Char)
  | [] => [[]]
  | c :: cs =>
    match splitOnChar sep cs with
    | [] => [[c]]
    | g :: gs => if c = sep then [] :: g :: gs else (c :: g) :: gs

/-- Joining segments with a single-character separator: the inverse
direction of `splitOnChar` (Python join with the separator string). -/
def joinWithChar (sep : Char) : List (List Char) → List Char
  | [] => []
  | [g] => g
  | g :: gs => g ++ sep :: joinWithChar sep gs

/-- Model of `parse_multi_columns` from `src/backend/utils.py`: split on the pipe
character when one occurs in the input, otherwise split on the comma. -/
def parse_multi_columns (columns : List Char) : List (List Char) :=
  if columns.contains '|' then splitOnChar '|' columns
  else splitOnChar ',' columns

/-- The separator `parse_multi_columns` chooses for a given input. -/
def chosenSep (columns : List Char) : Char :=
  if columns.contains '|' then '|' else ','

/-! ## `fetchUserGroups` (src/backend/utils.py)

The Graph directory endpoint is external; a run of requests is modelled as
a chain of page responses: each successful page carries the ids of its
`value` list (the API is called with `$select=id`) and optionally the
response behind its `@odata.nextLink`; `fail` stands for a non-200 status
code or a raised exception on the current request. -/

/-- A chain of directory-API page responses as seen by `fetchUserGroups`:
the current request either fails, or returns a final page (its response
has no `@odata.nextLink`) with a `value` list, or returns a page with a
`value` list and an `@odata.nextLink` behind which the rest of the chain
lies. -/
inductive GraphChain where
  | fail : GraphChain
  | last (value : List String) : GraphChain
  | page (value : List String) (next : GraphChain) : GraphChain

/-- Model of `fetchUserGroups` from `src/backend/utils.py`, over a response chain:
a failed request yields the empty list; a final page yields its `value`
list; a page with a next link extends its `value` list with the
recursively fetched remainder. -/
def fetchUserGroups : GraphChain → List String
  | .fail => []
  | .last value => value
  | .page value next => value ++ fetchUserGroups next

/-- The `value` lists of all pages of a chain, in page order. -/
def pageValues : GraphChain → List (List String)
  | .fail => []
  | .last value => [value]
  | .page value next => value :: pageValues next

/-- Every request in the chain succeeded (no page fetch returned non-200 or
raised). -/
def chainOk : GraphChain → Bool
  | .fail => false
  | .last _ => true
  | .page _ next => chainOk next

/-! ## `format_non_streaming_response` (src/backend/utils.py)

The chat-completion object is an SDK object with attributes `id`, `model`,
`created`, `object` and `choices`; each choice has an optional `message`
with a `content` value and, when the `hasattr` check succeeds, a `context`
dict. `Option` models a possibly absent attribute (`None` message,
missing `context`). -/

/-- The `message` attribute of a chat-completion choice: a `content` value
and, when present (`hasattr(message, "context")`), a `context` dict. -/
structure ChoiceMessage where
  content : JVal
  context : Option JVal

/-- A single entry of `chatCompletion.choices`; `message` is `none` when
the provider returned a null message. -/
structure Choice where
  message : Option ChoiceMessage

/-- A provider chat-completion object, as accessed by
`format_non_streaming_response`. -/
structure ChatCompletion where
  id : String
  model : String
  created : Int
  object : String
  choices : List Choice

/-- The `id` chosen for the envelope: `message_uuid if message_uuid else
chatCompletion.id` — a supplied non-empty uuid wins, the empty string is
falsy in Python and falls back to the completion id. -/
def responseId (chatCompletion : ChatCompletion) (message_uuid : Option String) : String :=
  match message_uuid with
  | some u => if u = "" then chatCompletion.id else u
  | none => chatCompletion.id

/-- The tool-role entries contributed by `message.context`, translated from
the body of `format_non_streaming_response`: when
`message.context.get("messages")` is truthy, every context message whose
`role` is `"tool"` becomes a tool entry carrying its `content`; otherwise,
when the `context` attribute exists at all, a single tool entry carrying
`json.dumps(message.context)` is appended. -/
def contextToolMessages (context : Option JVal) : List JVal :=
  match context with
  | some ctx =>
    if jTruthy (pyGet ctx "messages") then
      (jElems (pyGet ctx "messages")).filterMap (fun m =>
        match pyGet m "role" with
        | .str r =>
          if r = "tool" then
            some (.obj [("role", .str "tool"), ("content", pyGet m "content")])
          else none
        | _ => none)
    else
      [.obj [("role", .str "tool"), ("content", .str (jDumps ctx))]]
  | none => []

/-- Model of `format_non_streaming_response` from `src/backend/utils.py`: builds the
envelope with the six fixed keys, fills `choices[0].messages` with the
tool entries derived from the first choice message context followed by
the assistant entry, and returns the empty dict when there is no choice or
no message. -/
def format_non_streaming_response (chatCompletion : ChatCompletion)
    (history_metadata : JVal) (message_uuid : Option String) : JVal :=
  match chatCompletion.choices.head? with
  | none => .obj []
  | some choice =>
    match choice.message with
    | none => .obj []
    | some message =>
      .obj [("id", .str (responseId chatCompletion message_uuid)),
            ("model", .str chatCompletion.model),
            ("created", .num chatCompletion.created),
            ("object", .str chatCompletion.object),
            ("choices", .arr [.obj [("messages",
              .arr (contextToolMessages message.context ++
                [.obj [("role", .str "assistant"),
                       ("content", message.content)]]))]]),
            ("history_metadata", history_metadata)]

/-- Well-formedness of a first-choice message context, delimiting the
inputs on which the Python body runs without raising: a present `context`
attribute must be a dict, and when its `messages` entry is truthy it must
be a list of dicts each having a `role` key, with a `content` key whenever
that role is the string `"tool"` (those are the keys the loop subscripts).
-/
def contextWF : Option JVal → Bool
  | none => true
  | some (.obj fields) =>
    match jLookup "messages" (.obj fields) with
    | some (.arr ms) =>
      ms.all (fun m =>
        match m with
        | .obj mf =>
          (jLookup "role" (.obj mf)).isSome &&
            (match jLookup "role" (.obj mf) with
             | some (.str "tool") => (jLookup "content" (.obj mf)).isSome
             | _ => true)
        | _ => false)
    | some v => !jTruthy v
    | none => true
  | some _ => false

/-! ## The Cosmos conversation store
(src/backend/history/comosdbservice-comments.py)

The container is modelled as a list of documents. A document carries the
union of the conversation and message shapes; fields only one shape uses
are `Option`-valued and `none` means the field is absent from the JSON
document. Cosmos DB keys every item by its `id` together with the
partition key (here `userId`) and enforces uniqueness of that pair, so a
point read finds the first (hence only) document with that pair and a
point delete removes it. The two wall-clock reads
(`datetime.utcnow().isoformat()`) inside each operation and the generated
uuid are parameters of the embedding, since they come from the
environment; likewise every external upsert call takes a boolean saying
whether the service returned a truthy response. -/

/-- A document of the container: the union of the conversation shape
`id, type, createdAt, updatedAt, userId, title` and the message shape
`id, type, userId, createdAt, updatedAt, conversationId, role, content`
with an optional `feedback`. An `Option` field set to `none` is absent
from the stored JSON. -/
structure Doc where
  id : String
  type : String
  createdAt : String
  updatedAt : String
  userId : String
  title : Option String
  conversationId : Option String
  role : Option String
  content : Option String
  feedback : Option String
deriving DecidableEq, Repr

/-- The container state: its documents in insertion order. -/
abbrev Store := List Doc

/-- The store primitive `container_client.upsert_item(d)`: replace the document with the same
`(id, partition key)` pair, or insert `d` at the end when none exists. -/
def upsertItem : Store → Doc → Store
  | [], d => [d]
  | x :: xs, d =>
    if x.id = d.id ∧ x.userId = d.userId then d :: xs
    else x :: upsertItem xs d

/-- The store primitive `container_client.read_item(item, partition_key)`: the document with
that `(id, partition key)` pair, if stored. -/
def readItem (s : Store) (item : String) (partition_key : String) : Option Doc :=
  s.find? (fun x => x.id = item ∧ x.userId = partition_key)

/-- The store primitive `container_client.delete_item(item, partition_key)`: remove the
document with that `(id, partition key)` pair (unique in Cosmos, so
modelled as filtering the pair out). -/
def deleteItem (s : Store) (item : String) (partition_key : String) : Store :=
  s.filter (fun x => ¬(x.id = item ∧ x.userId = partition_key))

/-- A value a Python store operation can return: a document (a Cosmos
response dict), a boolean sentinel, a string message, or `None`. -/
inductive PyRes where
  | doc (d : Doc) : PyRes
  | bool (b : Bool) : PyRes
  | str (s : String) : PyRes
  | none : PyRes
deriving DecidableEq, Repr

/-- The filter of the `get_conversation` query:
`c.id = @conversationId and c.type='conversation' and c.userId = @userId`.
-/
def conversationFilter (user_id conversation_id : String) (d : Doc) : Bool :=
  d.id = conversation_id ∧ d.type = "conversation" ∧ d.userId = user_id

/-- The filter of the `get_messages` query: `c.conversationId =
@conversationId AND c.type='message' AND c.userId = @userId`. -/
def messageFilter (user_id conversation_id : String) (d : Doc) : Bool :=
  d.conversationId = some conversation_id ∧ d.type = "message" ∧
    d.userId = user_id

/-- Model of `get_conversation(user_id, conversation_id)`: run the parameterized
query and return the first result, or `None` when there is none. The
query has no ORDER BY, so results come back in store order. -/
def get_conversation (s : Store) (user_id conversation_id : String) : Option Doc :=
  (s.filter (conversationFilter user_id conversation_id)).head?

/-- Model of `get_messages(user_id, conversation_id)`: all documents matching the
message query. The query orders by `c.timestamp ASC`, a field no stored
message document carries, so the ordering does not rearrange the matching
documents here and the result is modelled in store order. -/
def get_messages (s : Store) (user_id conversation_id : String) : List Doc :=
  s.filter (messageFilter user_id conversation_id)

/-- The conversation document `create_conversation` builds:
fresh uuid, literal type `"conversation"`, the two `utcnow().isoformat()`
reads, the given user id and title, and nothing else. -/
def newConversationDoc (newUuid createdNow updatedNow user_id title : String) : Doc :=
  { id := newUuid
    type := "conversation"
    createdAt := createdNow
    updatedAt := updatedNow
    userId := user_id
    title := some title
    conversationId := Option.none
    role := Option.none
    content := Option.none
    feedback := Option.none }

/-- Model of `create_conversation(user_id, title)`: build the conversation document
and upsert it; return the upsert response when it is truthy and `False`
otherwise. `respOk` is whether the external upsert returned a truthy
response (the upserted item). -/
def create_conversation (s : Store) (respOk : Bool)
    (newUuid createdNow updatedNow user_id title : String) : Store × PyRes :=
  let conversation := newConversationDoc newUuid createdNow updatedNow user_id title
  if respOk then (upsertItem s conversation, .doc conversation)
  else (s, .bool false)

/-- Model of `upsert_conversation(conversation)`: upsert the document; return the
response when truthy and `False` otherwise. -/
def upsert_conversation (s : Store) (conversation : Doc) (respOk : Bool) :
    Store × PyRes :=
  if respOk then (upsertItem s conversation, .doc conversation)
  else (s, .bool false)

/-- Model of `delete_conversation(user_id, conversation_id)`: read the conversation
document and, when found, delete it (returning the delete response, which
the Cosmos SDK gives as `None`); otherwise return `True` and leave the
store unchanged. Only the document with id `conversation_id` is touched.
-/
def delete_conversation (s : Store) (user_id conversation_id : String) :
    Store × PyRes :=
  match readItem s conversation_id user_id with
  | some _ => (deleteItem s conversation_id user_id, .none)
  | Option.none => (s, .bool true)

/-- Model of `delete_messages(conversation_id, user_id)`: fetch the messages of the
conversation via `get_messages` and delete each by its `id` under the
`user_id` partition key, collecting a response per deletion; when the
conversation has no messages nothing is deleted and `None` is returned. -/
def delete_messages (s : Store) (conversation_id user_id : String) :
    Store × Option (List PyRes) :=
  let messages := get_messages s user_id conversation_id
  if messages.isEmpty then (s, Option.none)
  else
    (messages.foldl (fun st m => deleteItem st m.id user_id) s,
      some (messages.map (fun _ => PyRes.none)))

/-- The message document `create_message` builds from its arguments, the
two clock reads and the feedback feature flag. -/
def newMessageDoc (msgUuid conversation_id user_id : String)
    (inputRole inputContent : String) (createdNow updatedNow : String)
    (enable_message_feedback : Bool) : Doc :=
  { id := msgUuid
    type := "message"
    createdAt := createdNow
    updatedAt := updatedNow
    userId := user_id
    title := Option.none
    conversationId := some conversation_id
    role := some inputRole
    content := some inputContent
    feedback := if enable_message_feedback then some "" else Option.none }

/-- Model of `create_message(uuid, conversation_id, user_id, input_message)`:
upsert the message document; when that response is truthy, look the parent
conversation up — if absent return the string `"Conversation not found"`
(with the message left in the store), otherwise set the conversation
`updatedAt` to the message `createdAt`, upsert it back and return the
message-upsert response. A falsy message upsert returns `False`.
`msgRespOk` / `convRespOk` are the truthiness of the two external upsert
responses. -/
def create_message (s : Store) (msgRespOk convRespOk : Bool)
    (msgUuid conversation_id user_id : String)
    (inputRole inputContent : String) (createdNow updatedNow : String)
    (enable_message_feedback : Bool) : Store × PyRes :=
  let message := newMessageDoc msgUuid conversation_id user_id inputRole
    inputContent createdNow updatedNow enable_message_feedback
  if msgRespOk then
    let s₁ := upsertItem s message
    match get_conversation s₁ user_id conversation_id with
    | Option.none => (s₁, .str "Conversation not found")
    | some conversation =>
      let s₂ := (upsert_conversation s₁
        { conversation with updatedAt := message.createdAt } convRespOk).1
      (s₂, .doc message)
  else (s, .bool false)

/-! ## Query strings and parameters (get_conversations / get_messages) -/

/-- One entry of a Cosmos query `parameters` list, the Python dict
`{'name': ..., 'value': ...}`. -/
structure QueryParameter where
  name : String
  value : String
deriving DecidableEq, Repr

/-- The parameter list `get_conversations` sends: `@userId` bound to the
given user id. -/
def get_conversations_parameters (user_id : String) : List QueryParameter :=
  [{ name := "@userId", value := user_id }]

/-- The query string `get_conversations` sends, built exactly as in the
source: the base SELECT with the interpolated sort order, and the
`offset/limit` clause appended only when `limit is not None`. -/
def get_conversations_query (limit : Option Int) (sort_order : String)
    (offset : Int) : String :=
  let query :=
    "SELECT * FROM c where c.userId = @userId and c.type='conversation' order by c.updatedAt "
      ++ sort_order
  match limit with
  | some l => query ++ " offset " ++ toString offset ++ " limit " ++ toString l
  | none => query

/-- The parameter list `get_messages` sends: `@conversationId` then
`@userId`. -/
def get_messages_parameters (conversation_id user_id : String) :
    List QueryParameter :=
  [{ name := "@conversationId", value := conversation_id },
   { name := "@userId", value := user_id }]

/-- The (constant) query string `get_messages` sends. -/
def get_messages_query : String :=
  "SELECT * FROM c WHERE c.conversationId = @conversationId AND c.type='message' AND c.userId = @userId ORDER BY c.timestamp ASC"

/-! ## Concrete inputs used by witnesses and counterexamples -/

/-- A stored conversation document for the user `u1`. -/
def convDocEx : Doc :=
  { id := "c1", type := "conversation", createdAt := "t0", updatedAt := "t0",
    userId := "u1", title := some "hello", conversationId := Option.none,
    role := Option.none, content := Option.none, feedback := Option.none }

/-- A stored message document of conversation `c1` for the user `u1`. -/
def msgDocEx : Doc :=
  { id := "m1", type := "message", createdAt := "t1", updatedAt := "t1",
    userId := "u1", title := Option.none, conversationId := some "c1",
    role := some "user", content := some "hi", feedback := Option.none }

/-- A context dict carrying one tool message. -/
def ctxEx : JVal :=
  .obj [("messages",
    .arr [.obj [("role", .str "tool"), ("content", .str "cite")]])]

/-- The first-choice message of `ccEx`. -/
def choiceMsgEx : ChoiceMessage :=
  { content := .str "hi", context := some ctxEx }

/-- A chat-completion whose first choice message carries `ctxEx`. -/
def ccEx : ChatCompletion :=
  { id := "cc1", model := "gpt", created := 5, object := "chat.completion",
    choices := [{ message := some choiceMsgEx }] }

/-- A two-page directory response chain. -/
def chainEx : GraphChain :=
  .page ["g1", "g2"] (.last ["g3"])

/-! ## Lemmas about splitting (C9) -/

/-- Splitting never yields an empty list of segments. -/
theorem splitOnChar_ne_nil (sep : Char) (l : List Char) :
    splitOnChar sep l ≠ [] := by
  cases l with
  | nil => simp [splitOnChar]
  | cons c cs =>
    simp only [splitOnChar]
    cases h : splitOnChar sep cs with
    | nil => simp
    | cons g gs =>
      by_cases hc : c = sep <;> simp [hc]

/-- Prepending a non-separator character extends the first segment and the
join absorbs it. -/
theorem joinWithChar_cons_head (sep c : Char) (g : List Char)
    (gs : List (List Char)) :
    joinWithChar sep ((c :: g) :: gs) = c :: joinWithChar sep (g :: gs) := by
  cases gs <;> simp [joinWithChar]

/-- Joining the segments of a split with the same separator restores the
input. -/
theorem joinWithChar_splitOnChar (sep : Char) (l : List Char) :
    joinWithChar sep (splitOnChar sep l) = l := by
  induction l with
  | nil => simp [splitOnChar, joinWithChar]
  | cons c cs ih =>
    simp only [splitOnChar]
    cases h : splitOnChar sep cs with
    | nil => exact absurd h (splitOnChar_ne_nil sep cs)
    | cons g gs =>
      rw [h] at ih
      by_cases hc : c = sep
      · simp only [hc, if_pos rfl]
        cases gs <;> simp [joinWithChar] at ih ⊢ <;> simp [ih]
      · simp only [if_neg hc]
        rw [joinWithChar_cons_head, ih]

/-- No segment of a split contains the separator. -/
theorem splitOnChar_not_mem (sep : Char) (l : List Char) :
    ∀ seg ∈ splitOnChar sep l, sep ∉ seg := by
  induction l with
  | nil => simp [splitOnChar]
  | cons c cs ih =>
    simp only [splitOnChar]
    cases h : splitOnChar sep cs with
    | nil => exact absurd h (splitOnChar_ne_nil sep cs)
    | cons g gs =>
      rw [h] at ih
      by_cases hc : c = sep
      · simp only [hc, if_pos rfl]
        intro seg hseg
        rcases List.mem_cons.mp hseg with hseg | hseg
        · subst hseg
          simp
        · exact ih seg hseg
      · simp only [if_neg hc]
        intro seg hseg
        rcases List.mem_cons.mp hseg with hseg | hseg
        · subst hseg
          intro hmem
          rcases List.mem_cons.mp hmem with hmem | hmem
          · exact hc hmem.symm
          · exact ih g (List.mem_cons_self g gs) hmem
        · exact ih seg (List.mem_cons_of_mem g hseg)

/-- C9: `parse_multi_columns` splits on the pipe alone when the input
contains one and on the comma otherwise; the result is a non-empty segment
list, no segment contains the chosen separator (so commas survive inside
segments of a pipe split), and joining the segments with the chosen
separator reproduces the input. -/
theorem parse_multi_columns_split_round_trip (columns : List Char) :
    parse_multi_columns columns = splitOnChar (chosenSep columns) columns ∧
    parse_multi_columns columns ≠ [] ∧
    joinWithChar (chosenSep columns) (parse_multi_columns columns) = columns ∧
    ∀ seg ∈ parse_multi_columns columns, chosenSep columns ∉ seg := by
  have h1 : parse_multi_columns columns = splitOnChar (chosenSep columns) columns := by
    by_cases h : '|' ∈ columns <;> simp [parse_multi_columns, chosenSep, h]
  refine ⟨h1, ?_, ?_, ?_⟩ <;> rw [h1]
  · exact splitOnChar_ne_nil _ _
  · exact joinWithChar_splitOnChar _ _
  · exact splitOnChar_not_mem _ _

/-! ## Pagination (C7) and failure sentinels (C8) -/

/-- C7: when every page request of the chain succeeds, `fetchUserGroups`
returns the concatenation of the `value` lists of all pages, in page
order. -/
theorem fetchUserGroups_concat_pages (c : GraphChain)
    (h : chainOk c = true) :
    fetchUserGroups c = (pageValues c).flatten := by
  induction c with
  | fail => simp [chainOk] at h
  | last value => simp [fetchUserGroups, pageValues]
  | page value next ih =>
    simp only [chainOk] at h
    simp [fetchUserGroups, pageValues, ih h]

/-- C7 witness: the two-page chain `chainEx` is all-successful and its
fetched groups are the page `value` lists concatenated in order. -/
theorem fetchUserGroups_concat_pages_witness :
    chainOk chainEx = true ∧ fetchUserGroups chainEx = (pageValues chainEx).flatten :=
  ⟨by decide, fetchUserGroups_concat_pages chainEx (by decide)⟩

/-- C8: failures degrade to sentinels rather than typed errors — a failed
directory request (non-200 or exception, the `fail` chain) makes
`fetchUserGroups` return the empty list, and a falsy upsert response makes
`upsert_conversation` and `create_conversation` return the Python `False`
sentinel. -/
theorem failure_degrades_to_sentinels :
    fetchUserGroups .fail = [] ∧
    (∀ (s : Store) (conversation : Doc),
      (upsert_conversation s conversation false).2 = .bool false) ∧
    (∀ (s : Store) (newUuid createdNow updatedNow user_id title : String),
      (create_conversation s false newUuid createdNow updatedNow
        user_id title).2 = .bool false) :=
  ⟨rfl, fun _ _ => rfl, fun _ _ _ _ _ _ => rfl⟩

/-! ## Store lemmas -/

/-- Reading back the key of a just-upserted document yields that document.
-/
theorem readItem_upsertItem_self (s : Store) (d : Doc) :
    readItem (upsertItem s d) d.id d.userId = some d := by
  induction s with
  | nil => simp [upsertItem, readItem, List.find?]
  | cons x xs ih =>
    simp only [upsertItem]
    split
    · simp [readItem, List.find?]
    · rename_i hx
      simp only [readItem, List.find?] at ih ⊢
      have hfalse : (decide (x.id = d.id ∧ x.userId = d.userId)) = false := by
        simpa using hx
      rw [hfalse]
      exact ih

/-- Upserting a document whose id differs from `conversation_id` does not
change what the `get_conversation` query returns. -/
theorem get_conversation_upsert_other (s : Store) (d : Doc)
    (user_id conversation_id : String) (h : d.id ≠ conversation_id) :
    get_conversation (upsertItem s d) user_id conversation_id =
      get_conversation s user_id conversation_id := by
  have hfil : (upsertItem s d).filter (conversationFilter user_id conversation_id) =
      s.filter (conversationFilter user_id conversation_id) := by
    induction s with
    | nil =>
      simp [upsertItem, List.filter, conversationFilter, h]
    | cons x xs ih =>
      simp only [upsertItem]
      split
      · rename_i hx
        have hxid : x.id = d.id := hx.1
        simp only [List.filter]
        have hdx : conversationFilter user_id conversation_id d = false := by
          simp [conversationFilter, h]
        have hxx : conversationFilter user_id conversation_id x = false := by
          simp [conversationFilter, hxid, h]
        rw [hdx, hxx]
      · simp only [List.filter]
        cases hx : conversationFilter user_id conversation_id x <;> simp [ih]
  simp [get_conversation, hfil]

/-- Upserting a document the query filter rejects cannot make an empty
query result non-empty. -/
theorem filter_upsertItem_nil (s : Store) (d : Doc) (p : Doc → Bool)
    (hs : s.filter p = []) (hd : p d = false) :
    (upsertItem s d).filter p = [] := by
  induction s with
  | nil => simp [upsertItem, List.filter, hd]
  | cons x xs ih =>
    simp only [List.filter] at hs
    cases hx : p x with
    | true => rw [hx] at hs; exact absurd hs (by simp)
    | false =>
      rw [hx] at hs
      simp only [upsertItem]
      split
      · simp only [List.filter]
        rw [hd]
        exact hs
      · simp only [List.filter]
        rw [hx]
        exact ih hs

/-! ## C4: the conversation document built by `create_conversation` -/

/-- C4: `create_conversation` (with a truthy upsert response) builds and
upserts a document having exactly the conversation fields — the supplied
fresh uuid as `id`, the literal type `"conversation"`, the two
`utcnow().isoformat()` reads as `createdAt`/`updatedAt`, the given
`userId` and `title` — and no message-only field; the document is returned
and stored under its `(id, userId)` key. -/
theorem create_conversation_doc_fields (s : Store)
    (newUuid createdNow updatedNow user_id title : String) :
    ∃ d : Doc,
      (create_conversation s true newUuid createdNow updatedNow user_id title).2 =
        .doc d ∧
      readItem (create_conversation s true newUuid createdNow updatedNow
        user_id title).1 newUuid user_id = some d ∧
      d.id = newUuid ∧ d.type = "conversation" ∧ d.createdAt = createdNow ∧
      d.updatedAt = updatedNow ∧ d.userId = user_id ∧ d.title = some title ∧
      d.conversationId = Option.none ∧ d.role = Option.none ∧
      d.content = Option.none ∧ d.feedback = Option.none := by
  refine ⟨newConversationDoc newUuid createdNow updatedNow user_id title,
    rfl, ?_, rfl, rfl, rfl, rfl, rfl, rfl, rfl, rfl, rfl, rfl⟩
  have h := readItem_upsertItem_self s
    (newConversationDoc newUuid createdNow updatedNow user_id title)
  simpa [create_conversation, newConversationDoc] using h

/-- A conversation returned by the `get_conversation` query satisfies the
query filter: its id, type and user id are the queried ones. -/
theorem get_conversation_spec (s : Store) (user_id conversation_id : String)
    (c : Doc)
    (h : get_conversation s user_id conversation_id = some c) :
    c.id = conversation_id ∧ c.type = "conversation" ∧ c.userId = user_id := by
  unfold get_conversation at h
  cases hfil : s.filter (conversationFilter user_id conversation_id) with
  | nil => rw [hfil] at h; simp at h
  | cons a l =>
    rw [hfil] at h
    simp only [List.head?] at h
    injection h with h
    subst h
    have ha : a ∈ s.filter (conversationFilter user_id conversation_id) := by
      rw [hfil]; exact List.mem_cons_self a l
    have hp := List.of_mem_filter ha
    simpa [conversationFilter] using hp

/-! ## C3: `create_message` bumps the parent conversation `updatedAt` -/

/-- C3: when both upsert responses are truthy and the parent conversation
exists (under a message uuid distinct from the conversation id, as Cosmos
keys require), `create_message` returns the message-upsert response and
re-upserts the parent conversation document with `updatedAt` set to the
new message `createdAt` and every other conversation field — id, type,
createdAt, userId, title — unchanged. -/
theorem create_message_bumps_conversation_updatedAt
    (s : Store)
    (msgUuid conversation_id user_id inputRole inputContent
      createdNow updatedNow : String)
    (enable_message_feedback : Bool) (conversation : Doc)
    (hconv : get_conversation s user_id conversation_id = some conversation)
    (hid : msgUuid ≠ conversation_id) :
    (create_message s true true msgUuid conversation_id user_id inputRole
      inputContent createdNow updatedNow enable_message_feedback).2 =
      .doc (newMessageDoc msgUuid conversation_id user_id inputRole
        inputContent createdNow updatedNow enable_message_feedback) ∧
    ∃ d : Doc,
      readItem (create_message s true true msgUuid conversation_id user_id
        inputRole inputContent createdNow updatedNow
        enable_message_feedback).1 conversation_id user_id = some d ∧
      d.updatedAt = createdNow ∧
      d.id = conversation.id ∧ d.type = conversation.type ∧
      d.createdAt = conversation.createdAt ∧ d.userId = conversation.userId ∧
      d.title = conversation.title := by
  obtain ⟨hcid, hct, hcu⟩ :=
    get_conversation_spec s user_id conversation_id conversation hconv
  have hstep : get_conversation (upsertItem s (newMessageDoc msgUuid
      conversation_id user_id inputRole inputContent createdNow updatedNow
      enable_message_feedback)) user_id conversation_id = some conversation := by
    rw [get_conversation_upsert_other s _ user_id conversation_id
      (by simpa [newMessageDoc] using hid)]
    exact hconv
  constructor
  · simp [create_message, hstep]
  · refine ⟨{ conversation with updatedAt := createdNow }, ?_, rfl, rfl, rfl,
      rfl, rfl, rfl⟩
    have h := readItem_upsertItem_self
      (upsertItem s (newMessageDoc msgUuid conversation_id user_id inputRole
        inputContent createdNow updatedNow enable_message_feedback))
      { conversation with updatedAt := createdNow }
    simp only [create_message, hstep]
    simpa [upsert_conversation, newMessageDoc, hcid, hcu] using h

/-- C3 witness: inserting a message `m9` at time `t2` into the stored
conversation `c1` re-upserts `c1` with `updatedAt = "t2"` and all other
fields kept. -/
theorem create_message_bumps_conversation_updatedAt_witness :
    get_conversation [convDocEx] "u1" "c1" = some convDocEx ∧
    ("m9" : String) ≠ "c1" ∧
    ((create_message [convDocEx] true true "m9" "c1" "u1" "user" "hi" "t2"
        "t2" false).2 =
      .doc (newMessageDoc "m9" "c1" "u1" "user" "hi" "t2" "t2" false) ∧
    ∃ d : Doc,
      readItem (create_message [convDocEx] true true "m9" "c1" "u1" "user"
        "hi" "t2" "t2" false).1 "c1" "u1" = some d ∧
      d.updatedAt = "t2" ∧
      d.id = convDocEx.id ∧ d.type = convDocEx.type ∧
      d.createdAt = convDocEx.createdAt ∧ d.userId = convDocEx.userId ∧
      d.title = convDocEx.title) :=
  ⟨by decide, by decide,
    create_message_bumps_conversation_updatedAt [convDocEx] "m9" "c1" "u1"
      "user" "hi" "t2" "t2" false convDocEx (by decide) (by decide)⟩

/-! ## C10: `create_message` is not atomic on the missing-parent path -/

/-- C10: with a truthy message upsert but no parent conversation,
`create_message` returns the string `"Conversation not found"` while the
upserted message document stays in the store — the error path performs no
rollback. -/
theorem create_message_orphan_message_persists
    (s : Store)
    (msgUuid conversation_id user_id inputRole inputContent
      createdNow updatedNow : String)
    (enable_message_feedback : Bool)
    (hnone : get_conversation s user_id conversation_id = Option.none) :
    (create_message s true true msgUuid conversation_id user_id inputRole
      inputContent createdNow updatedNow enable_message_feedback).2 =
      .str "Conversation not found" ∧
    readItem (create_message s true true msgUuid conversation_id user_id
      inputRole inputContent createdNow updatedNow
      enable_message_feedback).1 msgUuid user_id =
      some (newMessageDoc msgUuid conversation_id user_id inputRole
        inputContent createdNow updatedNow enable_message_feedback) := by
  have hs : s.filter (conversationFilter user_id conversation_id) = [] := by
    unfold get_conversation at hnone
    exact List.head?_eq_none_iff.mp hnone
  have hnone' : get_conversation (upsertItem s (newMessageDoc msgUuid
      conversation_id user_id inputRole inputContent createdNow updatedNow
      enable_message_feedback)) user_id conversation_id = Option.none := by
    unfold get_conversation
    rw [filter_upsertItem_nil s _ _ hs (by simp [conversationFilter, newMessageDoc])]
    rfl
  constructor
  · simp [create_message, hnone']
  · have h : readItem (upsertItem s (newMessageDoc msgUuid conversation_id
        user_id inputRole inputContent createdNow updatedNow
        enable_message_feedback)) msgUuid user_id =
        some (newMessageDoc msgUuid conversation_id user_id inputRole
          inputContent createdNow updatedNow enable_message_feedback) :=
      readItem_upsertItem_self s _
    simpa [create_message, hnone'] using h

/-- C10 witness: against an empty store, inserting message `m1` for the
absent conversation `c9` returns the error string yet leaves `m1` stored.
-/
theorem create_message_orphan_message_persists_witness :
    get_conversation [] "u1" "c9" = Option.none ∧
    ((create_message [] true true "m1" "c9" "u1" "user" "hi" "t1" "t1"
        false).2 = .str "Conversation not found" ∧
    readItem (create_message [] true true "m1" "c9" "u1" "user" "hi" "t1"
        "t1" false).1 "m1" "u1" =
      some (newMessageDoc "m1" "c9" "u1" "user" "hi" "t1" "t1" false)) :=
  ⟨by decide,
    create_message_orphan_message_persists [] "m1" "c9" "u1" "user" "hi"
      "t1" "t1" false (by decide)⟩

/-! ## C1: `delete_conversation` does not cascade; `delete_messages` does -/

/-- Folding point deletions over a message list removes exactly the
documents keyed by one of the listed message ids under the partition key.
-/
theorem foldl_deleteItem_eq_filter (ms : List Doc) (s : Store) (uid : String) :
    ms.foldl (fun st m => deleteItem st m.id uid) s =
      s.filter (fun d => ms.all (fun m => !(d.id = m.id ∧ d.userId = uid))) := by
  induction ms generalizing s with
  | nil => simp
  | cons m ms ih =>
    simp only [List.foldl_cons]
    rw [ih]
    unfold deleteItem
    rw [List.filter_filter]
    apply List.filter_congr
    intro d _
    simp only [List.all_cons]
    rw [Bool.and_comm]
    simp [decide_not]

/-- C1 (amended): after `delete_messages(conversation_id, user_id)`
completes, no message of that conversation remains in the store. -/
theorem delete_messages_removes_all_messages (s : Store)
    (conversation_id user_id : String) :
    get_messages (delete_messages s conversation_id user_id).1 user_id
      conversation_id = [] := by
  unfold delete_messages
  cases hEmpty : (get_messages s user_id conversation_id).isEmpty with
  | true =>
    simp only [hEmpty, if_pos]
    exact List.isEmpty_iff.mp hEmpty
  | false =>
    simp only [hEmpty, Bool.false_eq_true, if_neg, not_false_eq_true]
    rw [foldl_deleteItem_eq_filter]
    unfold get_messages
    rw [List.filter_comm]
    apply List.filter_eq_nil_iff.mpr
    intro d hd
    have hdm : d ∈ get_messages s user_id conversation_id := hd
    have hfilter := List.of_mem_filter hd
    have hdu : d.userId = user_id := by
      simp only [messageFilter, decide_eq_true_eq] at hfilter
      exact hfilter.2.2
    simp only [List.all_eq_true]
    intro hall
    have hcontra := hall d hdm
    simp [hdu] at hcontra

/-- C1 counterexample: in a store holding conversation `c1` and its
message `m1`, `delete_conversation` removes only the conversation
document — the message of the deleted conversation is still in the store
afterwards, so the delete does not cascade. -/
theorem delete_conversation_leaves_messages_cex :
    (delete_conversation [convDocEx, msgDocEx] "u1" "c1").1 = [msgDocEx] ∧
    get_messages (delete_conversation [convDocEx, msgDocEx] "u1" "c1").1
      "u1" "c1" ≠ [] := by
  decide

/-! ## C5 and C6: the two query shapes -/

set_option maxRecDepth 8192 in
/-- C5: `get_conversations` binds `@userId` as its only parameter and
builds the listing query from the fixed base — filtering on
`c.userId = @userId` and `c.type='conversation'`, ordering by
`c.updatedAt` in the given sort order — appending the
`offset {offset} limit {limit}` clause exactly when a limit is given: the
`none` query is the base itself (whose fixed text contains no offset/limit
clause) and the `some` query is the `none` query followed by the clause. -/
theorem get_conversations_query_shape (user_id sort_order : String)
    (offset : Int) :
    get_conversations_parameters user_id =
      [{ name := "@userId", value := user_id }] ∧
    ¬ List.IsInfix "offset".toList
      "SELECT * FROM c where c.userId = @userId and c.type='conversation' order by c.updatedAt ".toList ∧
    get_conversations_query Option.none sort_order offset =
      "SELECT * FROM c where c.userId = @userId and c.type='conversation' order by c.updatedAt "
        ++ sort_order ∧
    ∀ limit : Int,
      get_conversations_query (some limit) sort_order offset =
        get_conversations_query Option.none sort_order offset ++
          " offset " ++ toString offset ++ " limit " ++ toString limit := by
  refine ⟨rfl, by decide, rfl, fun limit => ?_⟩
  simp [get_conversations_query, String.append_assoc]

/-- C6: `get_messages` binds `@conversationId` and `@userId` and sends the
fixed query filtering on `c.conversationId = @conversationId`,
`c.type='message'` and `c.userId = @userId`, ordered by `c.timestamp`
ascending; every document the modelled query returns satisfies the three
filter conditions. -/
theorem get_messages_query_shape (user_id conversation_id : String) :
    get_messages_parameters conversation_id user_id =
      [{ name := "@conversationId", value := conversation_id },
       { name := "@userId", value := user_id }] ∧
    get_messages_query =
      "SELECT * FROM c WHERE c.conversationId = @conversationId AND c.type='message' AND c.userId = @userId ORDER BY c.timestamp ASC" ∧
    ∀ (s : Store) (d : Doc), d ∈ get_messages s user_id conversation_id →
      d.conversationId = some conversation_id ∧ d.type = "message" ∧
        d.userId = user_id := by
  refine ⟨rfl, rfl, fun s d hd => ?_⟩
  have hp := List.of_mem_filter hd
  simpa [messageFilter] using hp

/-! ## C2: shape of the non-streaming response envelope -/

/-- C2: on a completion with a non-empty choices list whose first choice
has a non-null message (well-formed as the Python attribute accesses
require), `format_non_streaming_response` returns an envelope whose keys
are exactly `id, model, created, object, choices, history_metadata`, whose
`choices` value is a one-element list, and whose `choices[0].messages`
consists of tool-role entries followed by one final assistant entry. -/
theorem format_non_streaming_response_envelope
    (chatCompletion : ChatCompletion) (history_metadata : JVal)
    (message_uuid : Option String) (choice : Choice) (rest : List Choice)
    (message : ChoiceMessage)
    (hchoices : chatCompletion.choices = choice :: rest)
    (hmsg : choice.message = some message)
    (hwf : contextWF message.context = true) :
    jKeys (format_non_streaming_response chatCompletion history_metadata
      message_uuid) =
      ["id", "model", "created", "object", "choices", "history_metadata"] ∧
    ∃ toolMsgs : List JVal,
      jLookup "choices" (format_non_streaming_response chatCompletion
        history_metadata message_uuid) =
        some (.arr [.obj [("messages", .arr (toolMsgs ++
          [.obj [("role", .str "assistant"),
                 ("content", message.content)]]))]]) ∧
      ∀ t ∈ toolMsgs, jLookup "role" t = some (.str "tool") := by
  have hhead : chatCompletion.choices.head? = some choice := by
    rw [hchoices]; rfl
  constructor
  · simp [format_non_streaming_response, hhead, hmsg, jKeys]
  · refine ⟨contextToolMessages message.context, ?_, ?_⟩
    · simp [format_non_streaming_response, hhead, hmsg, jLookup,
        jLookup.lookupField]
    · intro t ht
      unfold contextToolMessages at ht
      cases hctx : message.context with
      | none => rw [hctx] at ht; simp at ht
      | some ctx =>
        rw [hctx] at ht
        dsimp only at ht
        by_cases htr : jTruthy (pyGet ctx "messages")
        · rw [if_pos htr] at ht
          obtain ⟨m, hm, hsome⟩ := List.mem_filterMap.mp ht
          cases hrole : pyGet m "role" with
          | str r =>
            rw [hrole] at hsome
            dsimp only at hsome
            by_cases hr : r = "tool"
            · rw [if_pos hr] at hsome
              injection hsome with hsome
              subst hsome
              simp [jLookup, jLookup.lookupField]
            · rw [if_neg hr] at hsome
              exact absurd hsome (by simp)
          | null => rw [hrole] at hsome; exact absurd hsome (by simp)
          | bool b => rw [hrole] at hsome; exact absurd hsome (by simp)
          | num n => rw [hrole] at hsome; exact absurd hsome (by simp)
          | arr xs => rw [hrole] at hsome; exact absurd hsome (by simp)
          | obj fs => rw [hrole] at hsome; exact absurd hsome (by simp)
        · rw [if_neg htr] at ht
          simp only [List.mem_singleton] at ht
          subst ht
          simp [jLookup, jLookup.lookupField]

/-- C2 witness: the formatter applied to `ccEx` (one choice, one tool
context message) yields the six-key envelope with the tool entry before
the final assistant entry. -/
theorem format_non_streaming_response_envelope_witness :
    ccEx.choices = ({ message := some choiceMsgEx } : Choice) :: [] ∧
    ({ message := some choiceMsgEx } : Choice).message = some choiceMsgEx ∧
    contextWF choiceMsgEx.context = true ∧
    (jKeys (format_non_streaming_response ccEx .null Option.none) =
      ["id", "model", "created", "object", "choices", "history_metadata"] ∧
    ∃ toolMsgs : List JVal,
      jLookup "choices" (format_non_streaming_response ccEx .null
        Option.none) =
        some (.arr [.obj [("messages", .arr (toolMsgs ++
          [.obj [("role", .str "assistant"),
                 ("content", choiceMsgEx.content)]]))]]) ∧
      ∀ t ∈ toolMsgs, jLookup "role" t = some (.str "tool")) :=
  ⟨rfl, rfl, by decide,
    format_non_streaming_response_envelope ccEx .null Option.none
      { message := some choiceMsgEx } [] choiceMsgEx rfl rfl (by decide)⟩
